import Mathlib

set_option maxRecDepth 8000

/-!
Shallow embedding of the `chronoban` file organizer (`src/main.rs`).

The program enumerates the entries of a base directory and, per entry:
skips entries whose name looks like a `YYYY-MM` bucket, reads metadata and a
timestamp (modification or access time), applies a minimum-age filter,
computes a destination path `base/YYYY-MM/name`, skips on destination
collision, and otherwise spawns a task that creates the bucket directory and
renames the entry into it, with a FIFO-bounded task queue of size `jobs`.
Stats (moved/skipped/errors) are tallied once per entry.

Modelling conventions:
- a path component is a list of characters (Rust `&str` names; for every name
  the `is_year_month_dir` check can accept, all characters are ASCII, so byte
  length and character count coincide and the `List Char` model agrees with
  the byte-level Rust check on all valid UTF-8 names);
- a filesystem path is the list of its components; `Path::join` appends;
- timestamps are integers (seconds); `SystemTime::duration_since` succeeds
  exactly when `now - t ≥ 0`;
- the chrono `DateTime<Local>` year/month extraction is an external library
  and is modelled as an oracle function `ym : Int → Int × Nat` in the context;
- `Path::exists`, `create_dir_all` and `rename` success are oracle functions
  of the context (the code consults the filesystem exactly once per question);
- the entry stream of `read_dir` is a list whose items are either an entry or
  a `next_entry` read failure;
- `tokio::spawn`ed move tasks are evaluated at spawn time (their outcome is a
  pure function of the oracles), and the FIFO admission/draining of the code
  (`tasks.remove(0)` when `tasks.len() >= jobs`, then a final drain loop) is
  modelled exactly.
-/

/-- ASCII digit test, as used by Rust's integer parsing (`char::to_digit 10`). -/
def isAsciiDigit (c : Char) : Bool := 48 ≤ c.toNat && c.toNat ≤ 57

/-- Model of Rust `char::to_digit(10)`: the numeric value of an ASCII digit. -/
def digitVal (c : Char) : Option Nat :=
  if isAsciiDigit c then some (c.toNat - 48) else none

/-- The digit-accumulation loop of Rust `u32::from_str` (checked against the
`u32` bound `2^32`, as `checked_mul`/`checked_add` do). -/
def parseDigits : Nat → List Char → Option Nat
  | acc, [] => some acc
  | acc, c :: rest =>
    match digitVal c with
    | none => none
    | some d =>
      if acc * 10 + d < 2 ^ 32 then parseDigits (acc * 10 + d) rest else none

/-- Model of Rust `str::parse::<u32>`: an optional leading `+` sign followed
by one or more ASCII digits, value below `2^32`.  A lone `+`, an empty string,
a `-` sign (invalid for unsigned) or any other character fails. -/
def parseU32 (s : List Char) : Option Nat :=
  match s with
  | [] => none
  | c :: rest =>
    if c = '+' then (if rest = [] then none else parseDigits 0 rest)
    else parseDigits 0 (c :: rest)

/-- Model of Rust `str::split('-')`: the (always nonempty) list of
hyphen-separated fragments, empty fragments included. -/
def splitHyphen : List Char → List (List Char)
  | [] => [[]]
  | c :: rest =>
    if c = '-' then [] :: splitHyphen rest
    else
      match splitHyphen rest with
      | [] => [[c]]
      | p :: ps => (c :: p) :: ps

/-- The name-shape test inside `is_year_month_dir` (src/main.rs:203-207):
length 7, fifth character `'-'`, split on `'-'` yields exactly two parts and
both parse as `u32`. -/
def isYearMonthName (n : List Char) : Bool :=
  if n.length = 7 ∧ n.get? 4 = some '-' then
    (splitHyphen n).length == 2 &&
      (parseU32 ((splitHyphen n).headI)).isSome &&
      (parseU32 ((splitHyphen n).getLastD [])).isSome
  else false

/-- Model of Rust `Path::file_name` on entry paths: the final component,
or `none` when it is the parent-directory marker `..` (in which case Rust
returns `None` and the program's `unwrap` would panic).  (Rust resolves a
trailing current-directory component to the previous one; directory
enumeration never yields such names, so on entry paths the models agree.) -/
def fileName (p : List (List Char)) : Option (List Char) :=
  match p.getLast? with
  | none => none
  | some c => if c = ['.', '.'] then none else some c

/-- src/main.rs:200-211 `is_year_month_dir`: checks only the *name* of the
path (via `file_name`), never whether the path is a directory. -/
def is_year_month_dir (p : List (List Char)) : Bool :=
  match fileName p with
  | some n => isYearMonthName n
  | none => false

/-- Decimal digit characters of a natural number (Rust `Display` of an
unsigned integer). -/
def natDigitsChars (n : Nat) : List Char := Nat.toDigits 10 n

/-- Zero padding to a minimum width, as Rust's `{:0w}` format does. -/
def padZeros (w : Nat) (s : List Char) : List Char :=
  List.replicate (w - s.length) '0' ++ s

/-- Rust `format!` with `{:04}` on a possibly negative integer (the sign
counts towards the width). -/
def fmtIntWidth (w : Nat) (i : Int) : List Char :=
  if i < 0 then '-' :: padZeros (w - 1) (natDigitsChars i.natAbs)
  else padZeros w (natDigitsChars i.natAbs)

/-- src/main.rs:128: `format!("{:04}-{:02}", year, month)`. -/
def yearMonthString (y : Int) (m : Nat) : List Char :=
  fmtIntWidth 4 y ++ ('-' :: padZeros 2 (natDigitsChars m))

/-- The parsed command-line configuration consumed by `organize_directory`. -/
structure Args where
  dry_run : Bool
  min_age_days : Nat
  use_atime : Bool
  jobs : Nat
  deriving DecidableEq

/-- The metadata of one directory entry: each timestamp read can fail
(`metadata.modified()` / `metadata.accessed()` return `Result`). -/
structure EntryMeta where
  mtime : Option Int
  atime : Option Int
  deriving DecidableEq

/-- One successfully yielded directory entry: its file name, whether the
filesystem reports it as a directory (the program never asks), and its
metadata (`entry.metadata()` can fail, modelled by `none`). -/
structure Entry where
  name : List Char
  isDir : Bool
  metadata : Option EntryMeta
  deriving DecidableEq

/-- src/main.rs:61-65 `Stats`. -/
@[ext]
structure Stats where
  moved : Nat
  skipped : Nat
  errors : Nat
  deriving DecidableEq

/-- The run context: configuration plus the external-world oracles
(current time, chrono's local-calendar conversion, and the filesystem's
answers to the existence/create/rename calls). -/
structure Ctx where
  args : Args
  now : Int
  ym : Int → Int × Nat
  fsExists : List (List Char) → Bool
  createOk : List (List Char) → Bool
  renameOk : List (List Char) → List (List Char) → Bool
  base : List (List Char)

/-- src/main.rs:74: `Duration::from_secs(args.min_age_days * 24 * 60 * 60)`
(u64 multiplication, wrapping at `2^64` in release builds). -/
def minAge (a : Args) : Int :=
  ((a.min_age_days * 24 * 60 * 60) % 2 ^ 64 : Nat)

/-- src/main.rs:103-107: the timestamp selected by `--use-atime`. -/
def tsOf (a : Args) (md : EntryMeta) : Option Int :=
  if a.use_atime then md.atime else md.mtime

/-- src/main.rs:85: `entry.path()` = base joined with the entry's name. -/
def entryPath (c : Ctx) (e : Entry) : List (List Char) :=
  c.base ++ [e.name]

/-- src/main.rs:131: `base_path.join(&year_month)` for the timestamp's
local-calendar year and month. -/
def targetDirOf (c : Ctx) (t : Int) : List (List Char) :=
  c.base ++ [yearMonthString (c.ym t).1 (c.ym t).2]

/-- Outcome of the scanner part of the loop body for one entry. -/
inductive Classified where
  | skip
  | error
  | move (src tgtDir tgt : List (List Char))
  deriving DecidableEq

/-- The per-entry classification of src/main.rs:85-140 (loop body up to the
spawn): bucket-name skip, metadata/timestamp errors, minimum-age skip,
destination collision skip, otherwise a planned move.  Returns `none` when
`path.file_name().unwrap()` (line 132) would panic. -/
def classifyEntry (c : Ctx) (e : Entry) : Option Classified :=
  if is_year_month_dir (entryPath c e) then some .skip
  else
    match e.metadata with
    | none => some .error
    | some md =>
      match tsOf c.args md with
      | none => some .error
      | some t =>
        if 0 ≤ c.now - t ∧ c.now - t < minAge c.args then some .skip
        else
          match fileName (entryPath c e) with
          | none => none
          | some fname =>
            if c.fsExists (targetDirOf c t ++ [fname]) then some .skip
            else some (.move (entryPath c e) (targetDirOf c t) (targetDirOf c t ++ [fname]))

/-- A successful filesystem mutation performed by a move task. -/
inductive FsOp where
  | createDirAll (p : List (List Char))
  | rename (src tgt : List (List Char))
  deriving DecidableEq

/-- The result of one spawned move task: whether it returned `Ok`, and the
successful filesystem mutations it performed. -/
structure TaskRes where
  success : Bool
  ops : List FsOp
  deriving DecidableEq

instance : Inhabited TaskRes := ⟨⟨false, []⟩⟩

/-- src/main.rs:145-161, the spawned task body: in dry-run mode it only
prints and succeeds (no mutation); otherwise it runs `create_dir_all` on the
bucket directory then `rename`s the entry, failing fast on either error. -/
def execTask (c : Ctx) (src tgtDir tgt : List (List Char)) : TaskRes :=
  if c.args.dry_run then ⟨true, []⟩
  else if c.createOk tgtDir then
    if c.renameOk src tgt then ⟨true, [.createDirAll tgtDir, .rename src tgt]⟩
    else ⟨false, [.createDirAll tgtDir]⟩
  else ⟨false, []⟩

/-- src/main.rs:168-178 and 183-195: awaiting one task adds one to `moved`
on `Ok` and one to `errors` otherwise. -/
def tally (s : Stats) (t : TaskRes) : Stats :=
  if t.success then { s with moved := s.moved + 1 }
  else { s with errors := s.errors + 1 }

/-- src/main.rs:183-195: awaiting every remaining queued task in order. -/
def drain (s : Stats) (ts : List TaskRes) : Stats := ts.foldl tally s

/-- One item of the `read_dir` stream: an entry, or a `next_entry` failure. -/
inductive StreamItem where
  | entry (e : Entry)
  | readErr
  deriving DecidableEq

/-- The result of `organize_directory`: normal completion with final stats
and the performed mutations (in spawn order), an `Err` return (the `?` on
`next_entry` at src/main.rs:84), or a panic (the `unwrap` at line 132). -/
inductive RunResult where
  | ok (stats : Stats) (ops : List FsOp)
  | fatal
  | panicked
  deriving DecidableEq

/-- The main loop of src/main.rs:84-195, with the queue-bounding logic of
lines 163-179 (push the task; if the queue has reached `jobs`, await the
oldest task — `tasks.remove(0)`, modelled by `headI`/`tail`, the queue being
nonempty right after the push — and tally it) and the final drain of lines
183-195. -/
def runLoop (c : Ctx) :
    List StreamItem → Stats → List TaskRes → List FsOp → RunResult
  | [], s, ts, ops => .ok (drain s ts) ops
  | .readErr :: _, _, _, _ => .fatal
  | .entry e :: rest, s, ts, ops =>
    match classifyEntry c e with
    | none => .panicked
    | some .skip => runLoop c rest { s with skipped := s.skipped + 1 } ts ops
    | some .error => runLoop c rest { s with errors := s.errors + 1 } ts ops
    | some (.move src tgtDir tgt) =>
      let t := execTask c src tgtDir tgt
      let ts' := ts ++ [t]
      let ops' := ops ++ t.ops
      if c.args.jobs ≤ ts'.length then
        runLoop c rest (tally s ts'.headI) ts'.tail ops'
      else runLoop c rest s ts' ops'

/-- src/main.rs:67-198 `organize_directory`, starting from zeroed stats, an
empty task queue and no performed mutations. -/
def organize_directory (c : Ctx) (items : List StreamItem) : RunResult :=
  runLoop c items ⟨0, 0, 0⟩ [] []

/-- The sequential single-threaded reference executor (spec section 4.2,
"Sequential" mode): identical scanning and per-move steps, but each planned
move is realized and tallied inline, with no task queue. -/
def seqRun (c : Ctx) : List StreamItem → Stats → List FsOp → RunResult
  | [], s, ops => .ok s ops
  | .readErr :: _, _, _ => .fatal
  | .entry e :: rest, s, ops =>
    match classifyEntry c e with
    | none => .panicked
    | some .skip => seqRun c rest { s with skipped := s.skipped + 1 } ops
    | some .error => seqRun c rest { s with errors := s.errors + 1 } ops
    | some (.move src tgtDir tgt) =>
      let t := execTask c src tgtDir tgt
      seqRun c rest (tally s t) (ops ++ t.ops)

/-- The final statistics of a run, when it completed normally. -/
def statsOf : RunResult → Option Stats
  | .ok s _ => some s
  | _ => none

/-- The context with the dry-run flag set to `b`. -/
def setDry (c : Ctx) (b : Bool) : Ctx :=
  { c with args := { c.args with dry_run := b } }

/-- The context with the minimum age set to zero days (spec: "a zero-length
minimum age means no age filter"). -/
def setMinAge0 (c : Ctx) : Ctx :=
  { c with args := { c.args with min_age_days := 0 } }

/-- The context with the concurrency ceiling set to `n`. -/
def setJobs (c : Ctx) (n : Nat) : Ctx :=
  { c with args := { c.args with jobs := n } }

/-- Written from the claim's words: the name matches the regex-equivalent
shape of four decimal digits, a hyphen, then two decimal digits. -/
def regexShape (n : List Char) : Bool :=
  (n.length == 7) && (n.take 4).all isAsciiDigit &&
    (n.get? 4 == some '-') && (n.drop 5).all isAsciiDigit

/-- Written from the amended claim's words: a string Rust accepts as a `u32`
literal, ignoring the range bound — an optional leading `'+'` followed by one
or more ASCII digits. -/
def u32Literal (s : List Char) : Bool :=
  match s with
  | [] => false
  | c :: rest =>
    if c = '+' then !rest.isEmpty && rest.all isAsciiDigit
    else (c :: rest).all isAsciiDigit

/-! ## Basic lemmas about tallying and draining -/

lemma drain_cons (s : Stats) (t : TaskRes) (ts : List TaskRes) :
    drain s (t :: ts) = drain (tally s t) ts := rfl

lemma drain_append (s : Stats) (ts : List TaskRes) (t : TaskRes) :
    drain s (ts ++ [t]) = tally (drain s ts) t := by
  simp [drain, List.foldl_append]

lemma tally_update_skipped (s : Stats) (k : Nat) (t : TaskRes) :
    tally { s with skipped := k } t = { tally s t with skipped := k } := by
  unfold tally; split <;> rfl

lemma drain_update_skipped (ts : List TaskRes) : ∀ (s : Stats) (k : Nat),
    drain { s with skipped := k } ts = { drain s ts with skipped := k } := by
  induction ts with
  | nil => intro s k; rfl
  | cons t ts ih =>
    intro s k
    rw [drain_cons, tally_update_skipped, ih, drain_cons]

lemma tally_bump_errors (s : Stats) (t : TaskRes) :
    tally { s with errors := s.errors + 1 } t
      = { tally s t with errors := (tally s t).errors + 1 } := by
  unfold tally; split <;> rfl

lemma drain_bump_errors (ts : List TaskRes) : ∀ s : Stats,
    drain { s with errors := s.errors + 1 } ts
      = { drain s ts with errors := (drain s ts).errors + 1 } := by
  induction ts with
  | nil => intro s; rfl
  | cons t ts ih =>
    intro s
    rw [drain_cons, tally_bump_errors, ih, drain_cons]

lemma drain_skipped (ts : List TaskRes) : ∀ s : Stats,
    (drain s ts).skipped = s.skipped := by
  induction ts with
  | nil => intro s; rfl
  | cons t ts ih =>
    intro s
    rw [drain_cons, ih]
    unfold tally; split <;> rfl

/-! ## The bounded FIFO executor is the sequential executor -/

lemma runLoop_eq_seqRun (c : Ctx) (items : List StreamItem) :
    ∀ (s : Stats) (ts : List TaskRes) (ops : List FsOp),
      runLoop c items s ts ops = seqRun c items (drain s ts) ops := by
  induction items with
  | nil => intro s ts ops; rfl
  | cons it rest ih =>
    intro s ts ops
    cases it with
    | readErr => rfl
    | entry e =>
      cases hcl : classifyEntry c e with
      | none => simp [runLoop, seqRun, hcl]
      | some cl =>
        cases cl with
        | skip =>
          simp only [runLoop, seqRun, hcl]
          rw [ih, drain_update_skipped, drain_skipped]
        | error =>
          simp only [runLoop, seqRun, hcl]
          rw [ih, drain_bump_errors]
        | move src tgtDir tgt =>
          simp only [runLoop, seqRun, hcl]
          by_cases hj : c.args.jobs ≤ (ts ++ [execTask c src tgtDir tgt]).length
          · rw [if_pos hj, ih]
            cases ts with
            | nil => rfl
            | cons u us =>
              simp only [List.cons_append, List.headI, List.tail_cons]
              rw [drain_append, drain_cons]
          · rw [if_neg hj, ih, drain_append]

/-! ## Counting lemmas for the sequential executor -/

lemma tally_sum (s : Stats) (t : TaskRes) :
    (tally s t).moved + (tally s t).skipped + (tally s t).errors
      = s.moved + s.skipped + s.errors + 1 := by
  unfold tally; split <;> simp <;> omega

lemma seqRun_sum (c : Ctx) (items : List StreamItem) :
    ∀ (s : Stats) (ops : List FsOp) (s' : Stats) (ops' : List FsOp),
      seqRun c items s ops = .ok s' ops' →
      s'.moved + s'.skipped + s'.errors
        = s.moved + s.skipped + s.errors + items.length := by
  induction items with
  | nil =>
    intro s ops s' ops' h
    simp only [seqRun, RunResult.ok.injEq] at h
    obtain ⟨rfl, rfl⟩ := h
    simp
  | cons it rest ih =>
    intro s ops s' ops' h
    cases it with
    | readErr => simp [seqRun] at h
    | entry e =>
      simp only [seqRun] at h
      cases hcl : classifyEntry c e with
      | none => rw [hcl] at h; simp at h
      | some cl =>
        rw [hcl] at h
        cases cl with
        | skip =>
          have := ih _ _ _ _ h
          simp only [List.length_cons] at *
          omega
        | error =>
          have := ih _ _ _ _ h
          simp only [List.length_cons] at *
          omega
        | move src tgtDir tgt =>
          have h1 := ih _ _ _ _ h
          have h2 := tally_sum s (execTask c src tgtDir tgt)
          simp only [List.length_cons] at *
          omega

lemma tally_components (s : Stats) (t : TaskRes) :
    s.moved ≤ (tally s t).moved ∧ s.skipped ≤ (tally s t).skipped ∧
      s.errors ≤ (tally s t).errors := by
  unfold tally; split <;> simp

lemma seqRun_mono (c : Ctx) (items : List StreamItem) :
    ∀ (s : Stats) (ops : List FsOp) (s' : Stats) (ops' : List FsOp),
      seqRun c items s ops = .ok s' ops' →
      s.moved ≤ s'.moved ∧ s.skipped ≤ s'.skipped ∧ s.errors ≤ s'.errors := by
  induction items with
  | nil =>
    intro s ops s' ops' h
    simp only [seqRun, RunResult.ok.injEq] at h
    obtain ⟨rfl, rfl⟩ := h
    exact ⟨le_refl _, le_refl _, le_refl _⟩
  | cons it rest ih =>
    intro s ops s' ops' h
    cases it with
    | readErr => simp [seqRun] at h
    | entry e =>
      simp only [seqRun] at h
      cases hcl : classifyEntry c e with
      | none => rw [hcl] at h; simp at h
      | some cl =>
        rw [hcl] at h
        cases cl with
        | skip =>
          have := ih _ _ _ _ h
          simp only at this
          exact ⟨this.1, le_trans (Nat.le_succ _) this.2.1, this.2.2⟩
        | error =>
          have := ih _ _ _ _ h
          exact ⟨this.1, this.2.1, le_trans (Nat.le_succ _) this.2.2⟩
        | move src tgtDir tgt =>
          have h1 := ih _ _ _ _ h
          have h2 := tally_components s (execTask c src tgtDir tgt)
          exact ⟨le_trans h2.1 h1.1, le_trans h2.2.1 h1.2.1,
            le_trans h2.2.2 h1.2.2⟩

lemma seqRun_append (c : Ctx) (xs : List StreamItem) :
    ∀ (ys : List StreamItem) (s : Stats) (ops : List FsOp),
      seqRun c (xs ++ ys) s ops =
        match seqRun c xs s ops with
        | .ok s' ops' => seqRun c ys s' ops'
        | r => r := by
  induction xs with
  | nil => intro ys s ops; rfl
  | cons it rest ih =>
    intro ys s ops
    cases it with
    | readErr => rfl
    | entry e =>
      cases hcl : classifyEntry c e with
      | none => simp [seqRun, hcl]
      | some cl => cases cl <;> simp [seqRun, hcl, ih]

/-- The classification step never reads the concurrency ceiling. -/
lemma classify_setJobs (c : Ctx) (n : Nat) (e : Entry) :
    classifyEntry (setJobs c n) e = classifyEntry c e := rfl

/-- The task body never reads the concurrency ceiling. -/
lemma exec_setJobs (c : Ctx) (n : Nat) (src tgtDir tgt : List (List Char)) :
    execTask (setJobs c n) src tgtDir tgt = execTask c src tgtDir tgt := rfl

lemma seqRun_setJobs (c : Ctx) (n : Nat) (items : List StreamItem) :
    ∀ (s : Stats) (ops : List FsOp),
      seqRun (setJobs c n) items s ops = seqRun c items s ops := by
  induction items with
  | nil => intro s ops; rfl
  | cons it rest ih =>
    intro s ops
    cases it with
    | readErr => rfl
    | entry e =>
      simp only [seqRun, classify_setJobs, exec_setJobs]
      cases hcl : classifyEntry c e with
      | none => rfl
      | some cl => cases cl <;> simp [hcl, ih]

/-! ## Claim C9: bounded concurrent executor refines the sequential one -/

/-- C9: For every input stream and every concurrency ceiling, the bounded
FIFO executor of `organize_directory` produces exactly the result of the
sequential single-threaded executor `seqRun` on the same stream (so the final
moved/skipped/error totals are identical for every ceiling `N`, in particular
every `N ≥ 1`); the ceiling does not influence the outcome at all. -/
theorem C9_bounded_executor_eq_sequential (c : Ctx) (items : List StreamItem)
    (n : Nat) :
    organize_directory c items = seqRun c items ⟨0, 0, 0⟩ [] ∧
    organize_directory (setJobs c n) items = organize_directory c items := by
  have h1 : ∀ c' : Ctx, organize_directory c' items = seqRun c' items ⟨0, 0, 0⟩ [] :=
    fun c' => runLoop_eq_seqRun c' items ⟨0, 0, 0⟩ [] []
  refine ⟨h1 c, ?_⟩
  rw [h1 (setJobs c n), seqRun_setJobs, ← h1 c]

/-! ## Claim C8: counters partition the enumerated entries -/

/-- C8: over any completed run, the final counters satisfy
`moved + skipped + errors = number of enumerated entries` (each entry
contributes exactly one increment of exactly one counter), and the counters
are monotone: extending the stream can only increase each of the three
counters, never decrease one. -/
theorem C8_counters_partition_entries (c : Ctx) (items : List StreamItem)
    (s : Stats) (ops : List FsOp)
    (h : organize_directory c items = .ok s ops) :
    s.moved + s.skipped + s.errors = items.length ∧
    ∀ (more : List StreamItem) (s' : Stats) (ops' : List FsOp),
      organize_directory c (items ++ more) = .ok s' ops' →
      s.moved ≤ s'.moved ∧ s.skipped ≤ s'.skipped ∧ s.errors ≤ s'.errors := by
  have h0 : seqRun c items ⟨0, 0, 0⟩ [] = .ok s ops :=
    (runLoop_eq_seqRun c items ⟨0, 0, 0⟩ [] []).symm.trans h
  constructor
  · simpa using seqRun_sum c items ⟨0, 0, 0⟩ [] s ops h0
  · intro more s' ops' h'
    have h0' : seqRun c (items ++ more) ⟨0, 0, 0⟩ [] = .ok s' ops' :=
      (runLoop_eq_seqRun c (items ++ more) ⟨0, 0, 0⟩ [] []).symm.trans h'
    rw [seqRun_append] at h0'
    simp only [h0] at h0'
    exact seqRun_mono c more s ops s' ops' h0'

/-- Concrete context for the C8 witness: no age filter, nothing exists at any
destination, every filesystem operation succeeds. -/
def cx8 : Ctx :=
  { args := ⟨false, 0, false, 16⟩, now := 0, ym := fun _ => (2023, 3),
    fsExists := fun _ => false, createOk := fun _ => true,
    renameOk := fun _ _ => true, base := [['b']] }

/-- Concrete stream for the C8 witness: a bucket-named entry (skip), an entry
with unreadable metadata (error), and an ordinary file (moved). -/
def itemsx8 : List StreamItem :=
  [.entry ⟨['2', '0', '2', '3', '-', '0', '3'], true, some ⟨some 0, some 0⟩⟩,
   .entry ⟨['x'], false, none⟩,
   .entry ⟨['f'], false, some ⟨some 0, some 0⟩⟩]

theorem C8_counters_partition_entries_witness :
    (1 : Nat) + 1 + 1 = itemsx8.length :=
  (C8_counters_partition_entries cx8 itemsx8 ⟨1, 1, 1⟩
    [.createDirAll [['b'], ['2', '0', '2', '3', '-', '0', '3']],
     .rename [['b'], ['f']] [['b'], ['2', '0', '2', '3', '-', '0', '3'], ['f']]]
    (by decide)).1

/-! ## Claim C2: a directory-entry read failure aborts the run -/

/-- Concrete context for the C2 counterexample. -/
def cx2 : Ctx :=
  { args := ⟨false, 0, false, 16⟩, now := 0, ym := fun _ => (2023, 3),
    fsExists := fun _ => false, createOk := fun _ => true,
    renameOk := fun _ _ => true, base := [['b']] }

/-- C2 counterexample: a `next_entry` failure in the middle of the stream
makes the whole run return `Err` (src/main.rs:84 uses `?`): the run aborts,
the error is NOT merely counted, the statistics accumulated for the first
entry are discarded, and the entry after the failure is never processed —
contradicting the claim that such a failure is per-entry recoverable. -/
theorem C2_counterexample :
    organize_directory cx2
      [.entry ⟨['a'], false, some ⟨some 0, some 0⟩⟩, .readErr,
       .entry ⟨['z'], false, some ⟨some 0, some 0⟩⟩] = .fatal := by decide

/-- C2 amended: a failure to read a directory entry during enumeration is
fatal, not recoverable — from any intermediate loop state (any statistics,
task queue and mutation log), the run immediately returns the propagated
error, discarding the state; subsequent entries are not processed and the
error counter is not incremented. -/
theorem C2_read_failure_aborts_run (c : Ctx) (rest : List StreamItem)
    (s : Stats) (ts : List TaskRes) (ops : List FsOp) :
    runLoop c (.readErr :: rest) s ts ops = .fatal := rfl

/-! ## Classification helper lemmas -/

lemma entryPath_setMinAge0 (c : Ctx) (e : Entry) :
    entryPath (setMinAge0 c) e = entryPath c e := rfl

lemma tsOf_setMinAge0 (c : Ctx) (md : EntryMeta) :
    tsOf (setMinAge0 c).args md = tsOf c.args md := rfl

lemma now_setMinAge0 (c : Ctx) : (setMinAge0 c).now = c.now := rfl

lemma targetDirOf_setMinAge0 (c : Ctx) (t : Int) :
    targetDirOf (setMinAge0 c) t = targetDirOf c t := rfl

lemma fsExists_setMinAge0 (c : Ctx) : (setMinAge0 c).fsExists = c.fsExists := rfl

lemma minAge_setMinAge0 (c : Ctx) : minAge (setMinAge0 c).args = 0 := by
  simp [setMinAge0, minAge]

/-- Pinning every branch of the scanner up to the collision check: a
non-bucket entry with readable metadata and timestamp that passes the age
filter reaches the destination-collision check, whose outcome alone decides
between a skip and a planned move. -/
lemma classify_pinned (c : Ctx) (e : Entry) (md : EntryMeta) (t : Int)
    (fn : List Char)
    (hb : is_year_month_dir (entryPath c e) = false)
    (hmd : e.metadata = some md)
    (hts : tsOf c.args md = some t)
    (hage : ¬(0 ≤ c.now - t ∧ c.now - t < minAge c.args))
    (hfn : fileName (entryPath c e) = some fn) :
    classifyEntry c e =
      (if c.fsExists (targetDirOf c t ++ [fn]) then some .skip
       else some (.move (entryPath c e) (targetDirOf c t)
         (targetDirOf c t ++ [fn]))) := by
  simp only [classifyEntry, hb, hmd, hts, hfn, Bool.false_eq_true, if_false]
  rw [if_neg hage]

/-- If the age filter does not fire for this entry, the classification is the
same as with no age filter configured at all (`--min-age-days 0`, which the
spec glosses as "no age filter"). -/
lemma classify_age_filter_noop (c : Ctx) (e : Entry) (md : EntryMeta) (t : Int)
    (hmd : e.metadata = some md)
    (hts : tsOf c.args md = some t)
    (hage : ¬(0 ≤ c.now - t ∧ c.now - t < minAge c.args)) :
    classifyEntry c e = classifyEntry (setMinAge0 c) e := by
  simp only [classifyEntry, entryPath_setMinAge0, tsOf_setMinAge0, now_setMinAge0,
    targetDirOf_setMinAge0, fsExists_setMinAge0, minAge_setMinAge0, hmd, hts]
  rw [if_neg hage, if_neg (by omega : ¬(0 ≤ c.now - t ∧ c.now - t < (0 : Int)))]

/-- A run over a single entry classified as a skip: one skip, no mutation. -/
lemma organize_single_skip (c : Ctx) (e : Entry)
    (h : classifyEntry c e = some .skip) :
    organize_directory c [.entry e] = .ok ⟨0, 1, 0⟩ [] := by
  simp [organize_directory, runLoop, h, drain]

/-! ## Claim C1: entries with future timestamps -/

/-- Concrete context for C1: minimum age one day, clock at 0. -/
def cx1 : Ctx :=
  { args := ⟨false, 1, false, 16⟩, now := 0, ym := fun _ => (1970, 1),
    fsExists := fun _ => false, createOk := fun _ => true,
    renameOk := fun _ _ => true, base := [['b']] }

/-- Concrete entry for C1: timestamp 100, i.e. in the future of `now = 0`. -/
def ex1 : Entry := ⟨['f'], false, some ⟨some 100, some 100⟩⟩

/-- C1 counterexample: with a positive minimum age (1 day) configured and an
entry whose retrieved timestamp (100) lies in the future of `now` (0),
`duration_since` fails, the `if let Ok(age)` block is bypassed, and the entry
is NOT classified as a skip: a planned move is emitted and executed, final
stats moved=1, skipped=0 — contradicting the claim. -/
theorem C1_counterexample :
    classifyEntry cx1 ex1 =
      some (.move [['b'], ['f']] [['b'], ['1', '9', '7', '0', '-', '0', '1']]
        [['b'], ['1', '9', '7', '0', '-', '0', '1'], ['f']]) ∧
    organize_directory cx1 [.entry ex1] =
      .ok ⟨1, 0, 0⟩
        [.createDirAll [['b'], ['1', '9', '7', '0', '-', '0', '1']],
         .rename [['b'], ['f']] [['b'], ['1', '9', '7', '0', '-', '0', '1'], ['f']]] := by
  decide

/-- C1 amended: an entry whose retrieved timestamp lies in the future
(`now − t < 0`) bypasses the age filter entirely: whatever minimum age is
configured, its classification is identical to the classification under no
age filter at all — it is neither skipped as too young nor errored, and
proceeds toward move planning. -/
theorem C1_future_timestamp_bypasses_age_filter (c : Ctx) (e : Entry)
    (md : EntryMeta) (t : Int)
    (hmd : e.metadata = some md)
    (hts : tsOf c.args md = some t)
    (hfut : c.now < t) :
    classifyEntry c e = classifyEntry (setMinAge0 c) e :=
  classify_age_filter_noop c e md t hmd hts (by omega)

theorem C1_future_timestamp_bypasses_age_filter_witness :
    classifyEntry cx1 ex1 = classifyEntry (setMinAge0 cx1) ex1 :=
  C1_future_timestamp_bypasses_age_filter cx1 ex1 ⟨some 100, some 100⟩ 100
    rfl rfl (by decide)

/-! ## Claim C3: directories are not skipped -/

/-- Concrete context for C3. -/
def cx3 : Ctx :=
  { args := ⟨false, 0, false, 16⟩, now := 0, ym := fun _ => (2023, 3),
    fsExists := fun _ => false, createOk := fun _ => true,
    renameOk := fun _ _ => true, base := [['b']] }

/-- Concrete entry for C3: a directory named `sub` (not a bucket name). -/
def ex3 : Entry := ⟨['s', 'u', 'b'], true, some ⟨some 0, some 0⟩⟩

/-- C3 counterexample: the directory `sub` — not a bucket directory — is not
skipped in the (only, non-recursive) mode of the program: it proceeds to move
planning and is renamed into the `2023-03` bucket, final stats moved=1,
contradicting the claim that non-bucket directories are skipped entirely. -/
theorem C3_counterexample :
    ex3.isDir = true ∧
    is_year_month_dir (entryPath cx3 ex3) = false ∧
    organize_directory cx3 [.entry ex3] =
      .ok ⟨1, 0, 0⟩
        [.createDirAll [['b'], ['2', '0', '2', '3', '-', '0', '3']],
         .rename [['b'], ['s', 'u', 'b']]
           [['b'], ['2', '0', '2', '3', '-', '0', '3'], ['s', 'u', 'b']]] := by
  decide

/-- C3 amended: the scanner never consults whether an entry is a directory:
classification is identical for a directory and a non-directory with the same
name and metadata, so non-bucket directories are processed exactly like files
(and are moved into `YYYY-MM` buckets, as the counterexample shows). -/
theorem C3_entry_type_ignored (c : Ctx) (n : List Char) (d d' : Bool)
    (md : Option EntryMeta) :
    classifyEntry c ⟨n, d, md⟩ = classifyEntry c ⟨n, d', md⟩ := rfl

/-! ## Claim C5: destination collisions are skips -/

/-- C5: an entry that reaches the destination check and whose computed
destination path already exists is classified as a skip; a single-entry run
over it completes with skipped=1 and an empty mutation log — the source is
never renamed (to this or any other destination) and nothing is overwritten. -/
theorem C5_existing_destination_skips (c : Ctx) (e : Entry) (md : EntryMeta)
    (t : Int) (fn : List Char)
    (hb : is_year_month_dir (entryPath c e) = false)
    (hmd : e.metadata = some md)
    (hts : tsOf c.args md = some t)
    (hage : ¬(0 ≤ c.now - t ∧ c.now - t < minAge c.args))
    (hfn : fileName (entryPath c e) = some fn)
    (hex : c.fsExists (targetDirOf c t ++ [fn]) = true) :
    classifyEntry c e = some .skip ∧
    organize_directory c [.entry e] = .ok ⟨0, 1, 0⟩ [] := by
  have h := classify_pinned c e md t fn hb hmd hts hage hfn
  rw [hex] at h
  simp only [if_true] at h
  exact ⟨h, organize_single_skip c e h⟩

/-- Concrete context for the C5 witness: everything already exists. -/
def cx5 : Ctx :=
  { args := ⟨false, 0, false, 16⟩, now := 0, ym := fun _ => (2023, 3),
    fsExists := fun _ => true, createOk := fun _ => true,
    renameOk := fun _ _ => true, base := [['b']] }

/-- Concrete entry for the C5 witness. -/
def ex5 : Entry := ⟨['f'], false, some ⟨some 0, some 0⟩⟩

theorem C5_existing_destination_skips_witness :
    classifyEntry cx5 ex5 = some .skip ∧
    organize_directory cx5 [.entry ex5] = .ok ⟨0, 1, 0⟩ [] :=
  C5_existing_destination_skips cx5 ex5 ⟨some 0, some 0⟩ 0 ['f']
    (by decide) rfl rfl (by decide) (by decide) rfl

/-! ## Claim C7: age threshold boundary -/

/-- C7: with a valid timestamp, an entry whose age is exactly the configured
minimum age is NOT skipped as too young (its classification equals that of a
run with no age filter at all), while an entry whose age is nonnegative and
strictly below the minimum age is skipped. -/
theorem C7_age_threshold_boundary (c : Ctx) (e : Entry) (md : EntryMeta)
    (t : Int)
    (hmd : e.metadata = some md)
    (hts : tsOf c.args md = some t) :
    (c.now - t = minAge c.args →
      classifyEntry c e = classifyEntry (setMinAge0 c) e) ∧
    (0 ≤ c.now - t → c.now - t < minAge c.args →
      classifyEntry c e = some .skip) := by
  constructor
  · intro heq
    apply classify_age_filter_noop c e md t hmd hts
    rw [heq]
    omega
  · intro h0 hlt
    unfold classifyEntry
    split
    · rfl
    · simp only [hmd, hts]
      rw [if_pos ⟨h0, hlt⟩]

/-- Concrete context for C7: one-day minimum age, clock at 86400. -/
def cx7 : Ctx :=
  { args := ⟨false, 1, false, 16⟩, now := 86400, ym := fun _ => (2023, 3),
    fsExists := fun _ => false, createOk := fun _ => true,
    renameOk := fun _ _ => true, base := [['b']] }

/-- C7 witness entry: age exactly 86400 seconds = the threshold. -/
def ex7 : Entry := ⟨['f'], false, some ⟨some 0, some 0⟩⟩

/-- C7 witness entry: age 86399 seconds, one second below the threshold. -/
def ey7 : Entry := ⟨['g'], false, some ⟨some 1, some 1⟩⟩

theorem C7_age_threshold_boundary_witness :
    classifyEntry cx7 ex7 = classifyEntry (setMinAge0 cx7) ex7 ∧
    classifyEntry cx7 ey7 = some .skip :=
  ⟨(C7_age_threshold_boundary cx7 ex7 ⟨some 0, some 0⟩ 0 rfl rfl).1 (by decide),
   (C7_age_threshold_boundary cx7 ey7 ⟨some 1, some 1⟩ 1 rfl rfl).2
     (by decide) (by decide)⟩

/-! ## Claim C6: dry runs mutate nothing and count identically -/

/-- The classification step never reads the dry-run flag. -/
lemma classify_setDry (c : Ctx) (b : Bool) (e : Entry) :
    classifyEntry (setDry c b) e = classifyEntry c e := rfl

/-- A dry-run task succeeds and performs no mutation (src/main.rs:146-148). -/
lemma execTask_setDryTrue (c : Ctx) (src d tg : List (List Char)) :
    execTask (setDry c true) src d tg = ⟨true, []⟩ := rfl

/-- A non-dry task in which both filesystem calls succeed returns success
after creating the bucket directory and renaming the entry. -/
lemma execTask_setDryFalse (c : Ctx) (src d tg : List (List Char))
    (hc : ∀ p, c.createOk p = true) (hr : ∀ p q, c.renameOk p q = true) :
    execTask (setDry c false) src d tg =
      ⟨true, [.createDirAll d, .rename src tg]⟩ := by
  simp [execTask, setDry, hc, hr]

lemma seqRun_dry_ops (c : Ctx) (items : List StreamItem) :
    ∀ (s : Stats) (ops : List FsOp) (s' : Stats) (ops' : List FsOp),
      seqRun (setDry c true) items s ops = .ok s' ops' → ops' = ops := by
  induction items with
  | nil =>
    intro s ops s' ops' h
    simp only [seqRun, RunResult.ok.injEq] at h
    exact h.2.symm
  | cons it rest ih =>
    intro s ops s' ops' h
    cases it with
    | readErr => simp [seqRun] at h
    | entry e =>
      simp only [seqRun, classify_setDry] at h
      cases hcl : classifyEntry c e with
      | none => rw [hcl] at h; simp at h
      | some cl =>
        rw [hcl] at h
        cases cl with
        | skip => exact ih _ _ _ _ h
        | error => exact ih _ _ _ _ h
        | move src tgtDir tgt =>
          have h2 := ih _ _ _ _ h
          rw [execTask_setDryTrue] at h2
          simpa using h2

lemma seqRun_dry_statsOf (c : Ctx)
    (hc : ∀ p, c.createOk p = true) (hr : ∀ p q, c.renameOk p q = true)
    (items : List StreamItem) :
    ∀ (s : Stats) (ops1 ops2 : List FsOp),
      statsOf (seqRun (setDry c true) items s ops1)
        = statsOf (seqRun (setDry c false) items s ops2) := by
  induction items with
  | nil => intro s ops1 ops2; rfl
  | cons it rest ih =>
    intro s ops1 ops2
    cases it with
    | readErr => rfl
    | entry e =>
      simp only [seqRun, classify_setDry]
      cases hcl : classifyEntry c e with
      | none => rfl
      | some cl =>
        cases cl with
        | skip => exact ih _ _ _
        | error => exact ih _ _ _
        | move src tgtDir tgt =>
          show statsOf (seqRun (setDry c true) rest
              (tally s (execTask (setDry c true) src tgtDir tgt))
              (ops1 ++ (execTask (setDry c true) src tgtDir tgt).ops))
            = statsOf (seqRun (setDry c false) rest
              (tally s (execTask (setDry c false) src tgtDir tgt))
              (ops2 ++ (execTask (setDry c false) src tgtDir tgt).ops))
          rw [execTask_setDryTrue, execTask_setDryFalse c src tgtDir tgt hc hr]
          exact ih _ _ _

/-- C6: with the dry-run flag set, every spawned task succeeds without any
filesystem mutation, a completed run's mutation log is empty, and the final
moved/skipped/error statistics are identical to those of the corresponding
non-dry run in which every directory creation and every rename succeeds (a
clean destination space) — in particular every planned move is counted in
`moved` in both modes. -/
theorem C6_dry_run_no_mutation_same_counts (c : Ctx) (items : List StreamItem)
    (hc : ∀ p, c.createOk p = true) (hr : ∀ p q, c.renameOk p q = true) :
    (∀ src d tg, execTask (setDry c true) src d tg = ⟨true, []⟩) ∧
    (∀ s ops, organize_directory (setDry c true) items = .ok s ops → ops = []) ∧
    statsOf (organize_directory (setDry c true) items)
      = statsOf (organize_directory (setDry c false) items) := by
  refine ⟨fun _ _ _ => rfl, ?_, ?_⟩
  · intro s ops h
    exact seqRun_dry_ops c items ⟨0, 0, 0⟩ [] s ops
      ((runLoop_eq_seqRun (setDry c true) items ⟨0, 0, 0⟩ [] []).symm.trans h)
  · unfold organize_directory
    rw [runLoop_eq_seqRun, runLoop_eq_seqRun]
    exact seqRun_dry_statsOf c hc hr items _ [] []

/-- Concrete context for the C6 witness. -/
def cx6 : Ctx :=
  { args := ⟨false, 0, false, 16⟩, now := 0, ym := fun _ => (2023, 3),
    fsExists := fun _ => false, createOk := fun _ => true,
    renameOk := fun _ _ => true, base := [['b']] }

/-- Concrete stream for the C6 witness: one movable file, one metadata error. -/
def itemsx6 : List StreamItem :=
  [.entry ⟨['f'], false, some ⟨some 0, some 0⟩⟩, .entry ⟨['x'], false, none⟩]

theorem C6_dry_run_no_mutation_same_counts_witness :
    statsOf (organize_directory (setDry cx6 true) itemsx6)
      = statsOf (organize_directory (setDry cx6 false) itemsx6) :=
  (C6_dry_run_no_mutation_same_counts cx6 itemsx6
    (fun _ => rfl) (fun _ _ => rfl)).2.2

/-! ## Claim C10: the file_name unwrap is safe -/

lemma fileName_append (p : List (List Char)) (n : List Char)
    (h : n ≠ ['.', '.']) : fileName (p ++ [n]) = some n := by
  unfold fileName
  rw [List.getLast?_concat]
  simp [h]

/-- C10: for every enumerated entry whose name is a real directory-entry name
(in particular not the parent-directory marker `..`, which `read_dir` never
yields), the entry path's final file-name component is that name, so the
`unwrap` at the destination computation (src/main.rs:132) cannot panic:
classification always returns an outcome. -/
theorem C10_file_name_unwrap_safe (c : Ctx) (e : Entry)
    (h : e.name ≠ ['.', '.']) :
    fileName (entryPath c e) = some e.name ∧ (classifyEntry c e).isSome := by
  have hf : fileName (entryPath c e) = some e.name :=
    fileName_append c.base e.name h
  refine ⟨hf, ?_⟩
  unfold classifyEntry
  split
  · rfl
  · cases hm : e.metadata with
    | none => simp [hm]
    | some md =>
      cases ht : tsOf c.args md with
      | none => simp [hm, ht]
      | some t =>
        simp only [hm, ht]
        split
        · rfl
        · simp only [hf]
          split <;> rfl

/-- Concrete context for the C10 witness. -/
def cx10 : Ctx :=
  { args := ⟨false, 0, false, 16⟩, now := 0, ym := fun _ => (2023, 3),
    fsExists := fun _ => false, createOk := fun _ => true,
    renameOk := fun _ _ => true, base := [['b']] }

/-- Concrete entry for the C10 witness. -/
def ex10 : Entry := ⟨['f'], false, some ⟨some 0, some 0⟩⟩

theorem C10_file_name_unwrap_safe_witness :
    fileName (entryPath cx10 ex10) = some ex10.name ∧
    (classifyEntry cx10 ex10).isSome :=
  C10_file_name_unwrap_safe cx10 ex10 (by decide)

/-! ## Claim C4 support: characterizing the bucket-name check -/

lemma splitHyphen_ne_nil (s : List Char) : splitHyphen s ≠ [] := by
  induction s with
  | nil => simp [splitHyphen]
  | cons c cs ih =>
    unfold splitHyphen
    split
    · simp
    · cases h : splitHyphen cs with
      | nil => simp
      | cons p ps => simp

lemma splitHyphen_no_hyphen (s : List Char) (h : '-' ∉ s) :
    splitHyphen s = [s] := by
  induction s with
  | nil => rfl
  | cons c cs ih =>
    have hc : c ≠ '-' := fun hc => h (hc ▸ List.mem_cons_self c cs)
    have hcs : '-' ∉ cs := fun hm => h (List.mem_cons_of_mem c hm)
    unfold splitHyphen
    rw [if_neg (fun hh : c = '-' => hc hh), ih hcs]

lemma splitHyphen_append (s t : List Char) (h : '-' ∉ s) :
    splitHyphen (s ++ '-' :: t) = s :: splitHyphen t := by
  induction s with
  | nil => simp [splitHyphen]
  | cons c cs ih =>
    have hc : c ≠ '-' := fun hc => h (hc ▸ List.mem_cons_self c cs)
    have hcs : '-' ∉ cs := fun hm => h (List.mem_cons_of_mem c hm)
    simp only [List.cons_append, splitHyphen, List.append_eq]
    rw [if_neg (fun hh : c = '-' => hc hh), ih hcs]

lemma splitHyphen_length (s : List Char) :
    (splitHyphen s).length = s.count '-' + 1 := by
  induction s with
  | nil => simp [splitHyphen]
  | cons c cs ih =>
    unfold splitHyphen
    split
    · rename_i hc
      simp [List.count_cons, hc, ih]
    · rename_i hc
      cases h : splitHyphen cs with
      | nil => exact absurd h (splitHyphen_ne_nil cs)
      | cons p ps =>
        rw [h] at ih
        simp only [List.length_cons] at ih ⊢
        have : (c == '-') = false := by
          simp only [beq_eq_false_iff_ne]
          exact hc
        simp [List.count_cons, this]
        omega

lemma parseDigits_isSome_eq (s : List Char) : ∀ acc : Nat,
    (acc + 1) * 10 ^ s.length ≤ 2 ^ 32 →
    (parseDigits acc s).isSome = s.all isAsciiDigit := by
  induction s with
  | nil => intro acc h; rfl
  | cons c cs ih =>
    intro acc h
    simp only [List.length_cons] at h
    have hpow : (1 : Nat) ≤ 10 ^ cs.length := Nat.one_le_pow _ _ (by omega)
    have hmul : (acc + 1) * 10 ^ (cs.length + 1)
        = ((acc + 1) * 10) * 10 ^ cs.length := by ring
    rw [hmul] at h
    have hacc10 : (acc + 1) * 10 ≤ 2 ^ 32 :=
      le_trans (Nat.le_mul_of_pos_right _ (by omega)) h
    simp only [parseDigits, List.all_cons]
    cases hd : digitVal c with
    | none =>
      have hdig : isAsciiDigit c = false := by
        unfold digitVal at hd
        by_cases hb : isAsciiDigit c
        · rw [if_pos hb] at hd; cases hd
        · exact Bool.eq_false_iff.mpr hb
      simp [hdig]
    | some d =>
      have hdig : isAsciiDigit c = true := by
        unfold digitVal at hd
        by_cases hb : isAsciiDigit c
        · exact hb
        · rw [if_neg hb] at hd; cases hd
      have hdle : d ≤ 9 := by
        unfold digitVal at hd
        rw [if_pos hdig] at hd
        injection hd with hd2
        have hb := hdig
        unfold isAsciiDigit at hb
        simp only [Bool.and_eq_true, decide_eq_true_eq] at hb
        omega
      have hlt : acc * 10 + d < 2 ^ 32 := by omega
      show (if acc * 10 + d < 2 ^ 32 then parseDigits (acc * 10 + d) cs
        else none).isSome = (isAsciiDigit c && cs.all isAsciiDigit)
      rw [if_pos hlt]
      have hbound : (acc * 10 + d + 1) * 10 ^ cs.length ≤ 2 ^ 32 := by
        calc (acc * 10 + d + 1) * 10 ^ cs.length
            ≤ ((acc + 1) * 10) * 10 ^ cs.length :=
              Nat.mul_le_mul_right _ (by omega)
          _ ≤ 2 ^ 32 := h
      rw [ih _ hbound, hdig]
      simp

lemma parseU32_isSome_eq (s : List Char) (h : s.length ≤ 9) :
    (parseU32 s).isSome = u32Literal s := by
  cases s with
  | nil => rfl
  | cons c cs =>
    simp only [List.length_cons] at h
    simp only [parseU32, u32Literal]
    by_cases hc : c = '+'
    · rw [if_pos hc, if_pos hc]
      cases hcs : cs with
      | nil => rfl
      | cons d ds =>
        rw [if_neg (by simp)]
        rw [← hcs]
        rw [parseDigits_isSome_eq cs 0 ?_]
        · simp [hcs]
        · have : (10 : Nat) ^ cs.length ≤ 10 ^ 8 :=
            Nat.pow_le_pow_right (by omega) (by omega)
          omega
    · rw [if_neg hc, if_neg hc]
      rw [parseDigits_isSome_eq (c :: cs) 0 ?_]
      have : (10 : Nat) ^ (c :: cs).length ≤ 10 ^ 9 := by
        apply Nat.pow_le_pow_right (by omega)
        simp only [List.length_cons]
        omega
      omega

lemma u32Literal_hyphen (s : List Char) (h : '-' ∈ s) :
    u32Literal s = false := by
  have hnd : isAsciiDigit '-' = false := by decide
  cases s with
  | nil => cases h
  | cons c cs =>
    simp only [u32Literal]
    by_cases hc : c = '+'
    · rw [if_pos hc]
      have hm : '-' ∈ cs := by
        rcases List.mem_cons.mp h with h1 | h2
        · exact absurd (hc ▸ h1.symm) (by decide)
        · exact h2
      cases hall : cs.all isAsciiDigit with
      | false => simp
      | true =>
        have := (List.all_eq_true.mp hall) '-' hm
        rw [hnd] at this
        cases this
    · rw [if_neg hc]
      cases hall : (c :: cs).all isAsciiDigit with
      | false => rfl
      | true =>
        have := (List.all_eq_true.mp hall) '-' h
        rw [hnd] at this
        cases this

lemma isYearMonthName_eq (n : List Char) :
    isYearMonthName n =
      ((n.length == 7) && u32Literal (n.take 4) &&
        (n.get? 4 == some '-') && u32Literal (n.drop 5)) := by
  by_cases h7 : n.length = 7
  · by_cases h4 : n.get? 4 = some '-'
    · have hlt : 4 < n.length := by omega
      have hidx : n[4] = '-' := by
        rw [List.get?_eq_getElem?] at h4
        obtain ⟨hh, hv⟩ := List.getElem?_eq_some.mp h4
        exact hv
      have hdec : n = n.take 4 ++ '-' :: n.drop 5 := by
        conv_lhs => rw [← List.take_append_drop 4 n]
        congr 1
        rw [List.drop_eq_getElem_cons hlt, hidx]
      have hlen_take : (n.take 4).length = 4 := by
        rw [List.length_take]; omega
      have hlen_drop : (n.drop 5).length = 2 := by
        rw [List.length_drop]; omega
      by_cases hA : '-' ∈ n.take 4
      · have hc1 : 0 < List.count '-' (n.take 4) := List.count_pos_iff.mpr hA
        have hne2 : ¬((splitHyphen n).length = 2) := by
          rw [splitHyphen_length]
          have h2 : 2 ≤ n.count '-' := by
            conv_rhs => rw [hdec]
            rw [List.count_append, List.count_cons]
            simp only [beq_self_eq_true, if_true]
            omega
          omega
        have hL : ((splitHyphen n).length == 2) = false := by
          simp [hne2]
        rw [isYearMonthName, if_pos (And.intro h7 h4), hL,
          u32Literal_hyphen _ hA]
        simp
      · by_cases hB : '-' ∈ n.drop 5
        · have hc1 : 0 < List.count '-' (n.drop 5) := List.count_pos_iff.mpr hB
          have hne2 : ¬((splitHyphen n).length = 2) := by
            rw [splitHyphen_length]
            have h2 : 2 ≤ n.count '-' := by
              conv_rhs => rw [hdec]
              rw [List.count_append, List.count_cons]
              simp only [beq_self_eq_true, if_true]
              omega
            omega
          have hL : ((splitHyphen n).length == 2) = false := by
            simp [hne2]
          rw [isYearMonthName, if_pos (And.intro h7 h4), hL,
            u32Literal_hyphen _ hB]
          simp
        · have hsplit : splitHyphen n = [n.take 4, n.drop 5] := by
            conv_lhs => rw [hdec]
            rw [splitHyphen_append _ _ hA, splitHyphen_no_hyphen _ hB]
          rw [isYearMonthName, if_pos (And.intro h7 h4), hsplit]
          have hp1 : (parseU32 (n.take 4)).isSome = u32Literal (n.take 4) :=
            parseU32_isSome_eq _ (by omega)
          have hp2 : (parseU32 (n.drop 5)).isSome = u32Literal (n.drop 5) :=
            parseU32_isSome_eq _ (by omega)
          have e1 : ([n.take 4, n.drop 5] : List (List Char)).headI = n.take 4 := rfl
          have e2 : List.getLastD [n.take 4, n.drop 5] [] = n.drop 5 := rfl
          have e3 : (([n.take 4, n.drop 5] : List (List Char)).length == 2) = true := rfl
          have e7 : (n.length == 7) = true := by simp [h7]
          have e4 : (n.get? 4 == some '-') = true := by
            simp only [beq_iff_eq]
            exact h4
          rw [e1, e2, e3, hp1, hp2, e7, e4]
          simp
    · have h4f : (n.get? 4 == some '-') = false := by
        simp only [beq_eq_false_iff_ne, ne_eq]
        exact h4
      rw [isYearMonthName, if_neg (fun hand => h4 hand.2), h4f]
      simp
  · have h7f : (n.length == 7) = false := by
      simp only [beq_eq_false_iff_ne, ne_eq]
      exact h7
    rw [isYearMonthName, if_neg (fun hand => h7 hand.1), h7f]
    simp

/-- C4 amended: an entry is classified as an already-organized bucket if and
only if its final name component is exactly 7 characters consisting of a
4-character `u32` literal, a hyphen, and a 2-character `u32` literal — where
a `u32` literal is one or more ASCII digits optionally preceded by `'+'`
(so `+123-45` is accepted alongside `2023-03`); whether the entry is a
directory is never consulted. -/
theorem C4_bucket_name_characterization (base : List (List Char))
    (n : List Char) :
    is_year_month_dir (base ++ [n]) =
      ((n.length == 7) && u32Literal (n.take 4) &&
        (n.get? 4 == some '-') && u32Literal (n.drop 5)) := by
  by_cases hdd : n = ['.', '.']
  · subst hdd
    have hf : fileName (base ++ [['.', '.']]) = none := by
      unfold fileName
      rw [List.getLast?_concat]
      simp
    rw [is_year_month_dir, hf]
    simp [u32Literal]
  · rw [is_year_month_dir, fileName_append base n hdd]
    exact isYearMonthName_eq n

/-- Concrete context for the C4 counterexample. -/
def cx4 : Ctx :=
  { args := ⟨false, 0, false, 16⟩, now := 0, ym := fun _ => (2023, 3),
    fsExists := fun _ => false, createOk := fun _ => true,
    renameOk := fun _ _ => true, base := [['b']] }

/-- C4 counterexample: the non-directory entry named `+123-45` is classified
as a bucket (skipped) although its name does not match the four-digits,
hyphen, two-digits shape, and the non-directory entry named `2023-03` is also
classified as a bucket although it is not a directory: the claimed
"directory and regex shape" if-and-only-if fails in both directions — the run
skips both files, moving neither. -/
theorem C4_counterexample :
    is_year_month_dir [['b'], ['+', '1', '2', '3', '-', '4', '5']] = true ∧
    regexShape ['+', '1', '2', '3', '-', '4', '5'] = false ∧
    organize_directory cx4
      [.entry ⟨['+', '1', '2', '3', '-', '4', '5'], false, some ⟨some 0, some 0⟩⟩,
       .entry ⟨['2', '0', '2', '3', '-', '0', '3'], false, some ⟨some 0, some 0⟩⟩]
      = .ok ⟨0, 2, 0⟩ [] := by decide
